import Mathlib

/-!
Verification of the Ventana BigTIFF vendor driver
(`src/openslide-vendor-ventana.c`).

The development shallowly embeds the C unit: a TIFF container is a list
of directories (the do-while loop walks them in order starting from the
current, i.e. first, directory), GLib regex matching of the two fixed
patterns built by `find_property` is modelled directly on character
lists, and the libxml document is abstracted to the answer it gives to
the single fixed XPath query used by the unit.  External collaborators
that are not part of this translation unit (codec availability,
`_openslide_add_tiff_associated_image`, XML parsing itself) are supplied
as an environment record.
-/

/-- PCRE whitespace class, used by the pattern atom that matches a
non-whitespace character in `find_property`. -/
def pcreSpace (c : Char) : Bool :=
  c = ' ' || c = '\t' || c = '\n' || c = '\x0b' || c = '\x0c' || c = '\r'

/-- Match the literal characters `key` followed by a literal equals sign
at the head of `s`; on success return the remainder of `s`. -/
def matchKeyEq (key : List Char) (s : List Char) : Option (List Char) :=
  match key, s with
  | [], '=' :: r => some r
  | [], _ => none
  | _ :: _, [] => none
  | k :: ks, c :: r => if c = k then matchKeyEq ks r else none

/-- One attempt of the pattern `key=(\S+)` (compiled with
`G_REGEX_UNGREEDY`, so the quantifier is lazy and the group takes a
single non-whitespace character) anchored at the current position.
Returns the FULL match text, which is what `g_match_info_fetch` with
argument 0 yields in the C code. -/
def matchUnquotedHere (key : List Char) (s : List Char) : Option (List Char) :=
  match matchKeyEq key s with
  | some (c :: _) => if pcreSpace c then none else some (key ++ '=' :: [c])
  | _ => none

/-- Leftmost match of the unquoted pattern over the subject string. -/
def findUnquoted (key : List Char) : List Char → Option (List Char)
  | [] => none
  | c :: t =>
    match matchUnquotedHere key (c :: t) with
    | some r => some r
    | none => findUnquoted key t

/-- A single or double quote, as matched by the character class in the
quoted pattern of `find_property`. -/
def isQuote (c : Char) : Bool := c = '"' || c = '\x27'

/-- Lazy `(.*)` followed by a closing quote-class character: the
shortest run of non-newline characters up to the next quote character.
Returns the group text and the closing quote. -/
def lazyToQuote : List Char → Option (List Char × Char)
  | [] => none
  | c :: t =>
    if isQuote c then some ([], c)
    else if c = '\n' then none
    else
      match lazyToQuote t with
      | some (g, q) => some (c :: g, q)
      | none => none

/-- One attempt of the quoted pattern `key=["'](.*)["']` (lazy group)
anchored at the current position; returns the full match text. -/
def matchQuotedHere (key : List Char) (s : List Char) : Option (List Char) :=
  match matchKeyEq key s with
  | some (q1 :: r) =>
    if isQuote q1 then
      match lazyToQuote r with
      | some (g, q2) => some (key ++ '=' :: q1 :: (g ++ [q2]))
      | none => none
    else none
  | _ => none

/-- Leftmost match of the quoted pattern over the subject string. -/
def findQuoted (key : List Char) : List Char → Option (List Char)
  | [] => none
  | c :: t =>
    match matchQuotedHere key (c :: t) with
    | some r => some r
    | none => findQuoted key t

/-- `find_property` from the C source: builds either the pattern
`prop_name=["'](.*)["']` (when `quotes`) or `prop_name=(\S+)`
(otherwise), runs `g_regex_match`, and on success stores
`g_match_info_fetch(props_match, 0)` — the text of the FULL match, not
of capture group 1 — into the out parameter.  `none` models the
`false` return, `some v` the `true` return with `*prop_value = v`. -/
def find_property (string_to_parse : String) (prop_name : String)
    (quotes : Bool) : Option String :=
  if quotes then
    (findQuoted prop_name.data string_to_parse.data).map (fun l => ⟨l⟩)
  else
    (findUnquoted prop_name.data string_to_parse.data).map (fun l => ⟨l⟩)

/-- Does `pat` occur at the head of `s`? -/
def startsWithL (pat : List Char) (s : List Char) : Bool :=
  match pat, s with
  | [], _ => true
  | _ :: _, [] => false
  | a :: as, b :: bs => a = b && startsWithL as bs

/-- Does `pat` occur anywhere inside `s`?  Models C `strstr`. -/
def containsSub (pat : List Char) : List Char → Bool
  | [] => startsWithL pat []
  | c :: t => startsWithL pat (c :: t) || containsSub pat t

/-- `strstr(s, pat) != NULL` on strings. -/
def strHas (s pat : String) : Bool := containsSub pat.data s.data

/-- An XML element as far as this unit observes it: its attributes,
looked up by `xmlGetProp`. -/
structure XmlNode where
  attrs : List (String × String)
deriving DecidableEq

/-- A parsed XML document, abstracted to the node set answering the one
fixed XPath query `/EncodeInfo/SlideInfo/iScan` that every evaluation in
this unit uses. -/
structure XmlDoc where
  iScanNodes : List XmlNode
deriving DecidableEq

/-- The libxml attribute lookup `xmlGetProp`. -/
def xmlGetProp (n : XmlNode) (attribute_name : String) : Option String :=
  n.attrs.lookup attribute_name

/-- The property mapping `osr->properties` (a GHashTable from string to
string). -/
abbrev PropMap := List (String × String)

/-- `g_hash_table_insert`: replaces any previous binding of the key. -/
def htInsert (m : PropMap) (k v : String) : PropMap :=
  (m.filter (fun p => p.1 != k)) ++ [(k, v)]

/-- Environment record for the external collaborators of the unit. -/
structure VEnv where
  /-- `xmlReadMemory`: whether a byte string parses, and to which
  document (abstracted to its iScan node set). -/
  parseXml : String → Option XmlDoc
  /-- `TIFFIsCODECConfigured` for a compression tag value. -/
  codecOK : Nat → Bool
  /-- Modelled from the spec: whether
  `_openslide_add_tiff_associated_image` (defined outside this
  translation unit) succeeds for the directory it is invoked on; per the
  spec its success does not depend on whether a sink is supplied. -/
  assocOK : Nat → Bool

/-- `eval_xpath` from the C source: evaluates the fixed query and
returns NULL (here `none`) when the result is NULL, has a NULL node set
or a node count of zero. -/
def eval_xpath (doc : XmlDoc) : Option (List XmlNode) :=
  match doc.iScanNodes with
  | [] => none
  | n :: ns => some (n :: ns)

/-- `set_prop_from_attribute` from the C source: evaluate the query,
and when it matched, read the named attribute of the first node and, if
both an `osr` was supplied and the attribute exists, insert it under
`property_name`. -/
def set_prop_from_attribute (osr : Bool) (property_name attribute_name : String)
    (doc : XmlDoc) (props : PropMap) : PropMap :=
  match eval_xpath doc with
  | none => props
  | some ns =>
    match ns with
    | [] => props
    | n :: _ =>
      match xmlGetProp n attribute_name with
      | none => props
      | some v => if osr then htInsert props property_name v else props

/-- The (property key, attribute) pairs read off the iScan node by
`parse_xml_description`, in source order. -/
def ventanaAttrs : List (String × String) :=
  [("ventana.magnification", "Magnification"),
   ("ventana.resolution", "ScanRes"),
   ("ventana.device-model", "UnitNumber"),
   ("ventana.build-version", "BuildVersion"),
   ("ventana.build-date", "BuildDate"),
   ("ventana.slide-annotation", "SlideAnnotation"),
   ("ventana.show-label", "ShowLabel"),
   ("ventana.label-boundary", "LabelBoundary"),
   ("ventana.z-layers", "Z-layers"),
   ("ventana.z-spacing", "Z-spacing"),
   ("ventana.focus-mode", "FocusMode"),
   ("ventana.focus-quality", "FocusQuality"),
   ("ventana.scan-mode", "ScanMode")]

/-- Modelled from the spec: `_openslide_duplicate_int_prop` and
`_openslide_duplicate_double_prop` are defined outside this translation
unit; per spec section 4.2 they derive a standard property from a vendor
property by numeric copy-and-reinterpret with no unit conversion, and
leave the map unchanged when the source key is absent. -/
def duplicateProp (props : PropMap) (src dst : String) : PropMap :=
  match props.lookup src with
  | none => props
  | some v => htInsert props dst v

/-- All thirteen vendor attribute copies performed after the node-count
check. -/
def applyVentanaProps (osr : Bool) (doc : XmlDoc) (props : PropMap) : PropMap :=
  ventanaAttrs.foldl
    (fun ps pa => set_prop_from_attribute osr pa.1 pa.2 doc ps) props

/-- The standard-property derivations, guarded by `if (osr)` in the
source. -/
def applyStandardProps (osr : Bool) (props : PropMap) : PropMap :=
  if osr then
    duplicateProp
      (duplicateProp
        (duplicateProp props "ventana.magnification" "openslide.objective-power")
        "ventana.resolution" "openslide.mpp-x")
      "ventana.resolution" "openslide.mpp-y"
  else props

/-- Error kinds raised by this unit.  `assocFail` stands for the error
propagated (with `g_prefix_error`) out of associated-image
registration. -/
inductive VErr where
  | formatNotSupported
  | badData
  | assocFail (image : String)
deriving DecidableEq

/-- Result of `parse_xml_description`: `ok` is the `true` return with
the final state of the property map, `err` the `false` return with the
GError kind that was set. -/
inductive XmlParseResult where
  | ok (props : PropMap)
  | err (e : VErr)
deriving DecidableEq

/-- `parse_xml_description` from the C source: parse the byte string
(`FormatNotSupported` when `xmlReadMemory` fails), check that the fixed
query matches exactly one node (`BadData` when the result is NULL/empty
or the node count differs from one), then copy the attributes and derive
the standard properties. -/
def parse_xml_description (env : VEnv) (osr : Bool) (xml : String)
    (props : PropMap) : XmlParseResult :=
  match env.parseXml xml with
  | none => .err .formatNotSupported
  | some doc =>
    match eval_xpath doc with
    | none => .err .badData
    | some ns =>
      if ns.length ≠ 1 then .err .badData
      else .ok (applyStandardProps osr (applyVentanaProps osr doc props))

/-- One TIFF directory, as observed through the tag reads this unit
performs.  `none` on a field models `TIFFGetField` returning 0 for that
tag. -/
structure TiffDir where
  /-- `TIFFIsTiled` for this directory. -/
  tiled : Bool
  /-- `TIFFTAG_IMAGEWIDTH` (a `uint32_t`). -/
  width : Option Nat
  /-- `TIFFTAG_IMAGEDESCRIPTION`. -/
  description : Option String
  /-- `TIFFTAG_COMPRESSION` (a `uint16_t`). -/
  compression : Option Nat
  /-- `TIFFTAG_XMLPACKET` payload. -/
  xmp : Option String
deriving DecidableEq

/-- `struct level` from the C source. -/
structure Level where
  directory : Nat
  width : Nat
deriving DecidableEq

/-- `width_compare` from the C source (the `GCompareFunc` handed to
`g_list_sort`). -/
def width_compare (la lb : Level) : Int :=
  if la.width > lb.width then -1
  else if la.width = lb.width then 0
  else 1

/-- Stable insertion with respect to `width_compare`: the new element
goes in front of the first element it does not compare after.  Together
with `g_list_sort` below this computes exactly the output of GLib's
`g_list_sort`, which is a stable merge sort (a stable sort's output is
determined by the comparator alone). -/
def insertSorted (x : Level) : List Level → List Level
  | [] => [x]
  | y :: ys => if width_compare x y ≤ 0 then x :: y :: ys else y :: insertSorted x ys

/-- The behaviour of GLib `g_list_sort` with comparator
`width_compare`: sort by non-increasing width, preserving the relative
order of equal-width entries. -/
def g_list_sort : List Level → List Level
  | [] => []
  | x :: xs => insertSorted x (g_list_sort xs)

/-- The mutable registry `osr->associated_images`, observed as the list
of (name, directory) registrations performed, most recent first. -/
abbrev AssocList := List (String × Nat)

/-- Modelled from the spec: `_openslide_add_tiff_associated_image` is
defined outside this translation unit.  Per spec sections 6 and 8 it
reads the image from the directory (success independent of whether a
sink was supplied) and, when a sink is present, registers the named
entry.  `none` models the `false` return. -/
def _openslide_add_tiff_associated_image (env : VEnv) (osr : Bool)
    (name : String) (dir : Nat) (assoc : AssocList) : Option AssocList :=
  if env.assocOK dir then some (if osr then (name, dir) :: assoc else assoc)
  else none

/-- `add_associated_image` from the C source: use the supplied name if
available, otherwise fall back to the directory's image description
(returning `true` without adding anything when neither exists), then
invoke the registration collaborator. -/
def add_associated_image (env : VEnv) (osr : Bool)
    (name_if_available : Option String) (dir : Nat) (d : TiffDir)
    (assoc : AssocList) : Option AssocList :=
  match name_if_available with
  | some n => _openslide_add_tiff_associated_image env osr n dir assoc
  | none =>
    match d.description with
    | none => some assoc
    | some n => _openslide_add_tiff_associated_image env osr n dir assoc

/-- Mutable state threaded through the directory loop of
`_openslide_try_ventana`: the accumulated `level_list` (most recently
prepended first) plus the two caller-owned sinks. -/
structure LoopState where
  levels : List Level
  props : PropMap
  assoc : AssocList
deriving DecidableEq

/-- Outcome of one iteration of the do-while loop body. -/
inductive StepResult where
  | next (st : LoopState)
  | abort (e : VErr)
deriving DecidableEq

/-- The tail of the loop body for a directory that is tiled, has a
width and is not one of the two reserved indices: description and
`level` token gate accumulation; compression problems are hard
`BadData` failures; a level value equal to `"0"` triggers the XMP /
iScan format confirmation and XML parsing. -/
def processLevel (env : VEnv) (osr : Bool) (i : Nat) (w : Nat) (d : TiffDir)
    (st : LoopState) : StepResult :=
  match d.description with
  | none => .next st
  | some imageDesc =>
    match find_property imageDesc "level" false with
    | none => .next st
    | some level_value =>
      match d.compression with
      | none => .abort .badData
      | some compression =>
        if env.codecOK compression = false then .abort .badData
        else if level_value = "0" then
          match d.xmp with
          | none => .abort .formatNotSupported
          | some xmpData =>
            if strHas xmpData "<iScan" = false then .abort .formatNotSupported
            else
              match parse_xml_description env osr xmpData st.props with
              | .err e => .abort e
              | .ok ps =>
                .next { st with props := ps, levels := ⟨i, w⟩ :: st.levels }
        else .next { st with levels := ⟨i, w⟩ :: st.levels }

/-- One iteration of the do-while loop of `_openslide_try_ventana` on
the directory with index `i`: skip non-tiled and width-less
directories, route indices 0 and 1 to associated-image registration
(aborting on registration failure), and classify the rest via
`processLevel`. -/
def stepDir (env : VEnv) (osr : Bool) (i : Nat) (d : TiffDir)
    (st : LoopState) : StepResult :=
  if d.tiled = false then .next st
  else
    match d.width with
    | none => .next st
    | some w =>
      if i = 0 then
        match add_associated_image env osr (some "label") 0 d st.assoc with
        | none => .abort (.assocFail "label")
        | some a => .next { st with assoc := a }
      else if i = 1 then
        match add_associated_image env osr (some "thumbnail") 1 d st.assoc with
        | none => .abort (.assocFail "thumbnail")
        | some a => .next { st with assoc := a }
      else processLevel env osr i w d st

/-- The directory walk: run the loop body on each (index, directory)
pair until the list is exhausted or an iteration aborts.  Returns the
state reached together with the error, if any, that stopped the walk
(the sinks keep every mutation made before the failure: the C code
performs no rollback). -/
def runDirs (env : VEnv) (osr : Bool) :
    List (Nat × TiffDir) → LoopState → LoopState × Option VErr
  | [], st => (st, none)
  | (i, d) :: rest, st =>
    match stepDir env osr i d st with
    | .abort e => (st, some e)
    | .next st' => runDirs env osr rest st'

/-- Pair each directory with its index, starting from `n`
(`TIFFCurrentDirectory` / `TIFFReadDirectory` enumeration). -/
def enumF (n : Nat) : List TiffDir → List (Nat × TiffDir)
  | [] => []
  | d :: ds => (n, d) :: enumF (n + 1) ds

/-- Terminal outcome of `_openslide_try_ventana`.  `handoff` is the
`true` return after `_openslide_add_tiff_ops` was invoked on the sorted
level array (whose first entry the backend treats as the base level);
`fail e` is the `false` return with GError kind `e`; `oobRead` marks
the execution that reaches `levels[0]` with `level_count == 0`, an
out-of-bounds read of a zero-length allocation (undefined behaviour in
the C source). -/
inductive TryResult where
  | handoff (levels : List Level)
  | fail (e : VErr)
  | oobRead
deriving DecidableEq

/-- Observable outcome of a classification run: the result plus the
final contents of the two caller-owned sinks. -/
structure Outcome where
  result : TryResult
  props : PropMap
  assoc : AssocList
deriving DecidableEq

/-- Sink state at loop entry: the vendor property has already been
inserted (when an `osr` was supplied), which the source does right
after the initial tiled check. -/
def initState (osr : Bool) : LoopState :=
  ⟨[], if osr then htInsert [] "openslide.vendor" "ventana" else [], []⟩

/-- Epilogue of `_openslide_try_ventana`: a loop abort becomes the
`false` return with the error (sink mutations kept, no rollback); a
completed walk sorts the accumulated levels with `g_list_sort`, copies
them into the `levels` array and reads `levels[0]` — an out-of-bounds
access of the zero-length allocation when nothing was accumulated —
before handing off to `_openslide_add_tiff_ops`. -/
def finishRun : LoopState × Option VErr → Outcome
  | (st, some e) => ⟨.fail e, st.props, st.assoc⟩
  | (st, none) =>
    match g_list_sort st.levels with
    | [] => ⟨.oobRead, st.props, st.assoc⟩
    | l :: ls => ⟨.handoff (l :: ls), st.props, st.assoc⟩

/-- `_openslide_try_ventana` from the C source, for a container holding
the given directory list and positioned at the first directory.  An
open TIFF handle always exposes at least one (current) directory, so
the empty list is not reachable from the C entry point; it is mapped to
the initial `FormatNotSupported` failure. -/
def _openslide_try_ventana (env : VEnv) (osr : Bool)
    (dirs : List TiffDir) : Outcome :=
  match dirs with
  | [] => ⟨.fail .formatNotSupported, [], []⟩
  | d0 :: _ =>
    if d0.tiled = false then ⟨.fail .formatNotSupported, [], []⟩
    else finishRun (runDirs env osr (enumF 0 dirs) (initState osr))

/-- The output ordering actually produced by the sort: widths
non-increasing, ties in descending directory order (the accumulation
list holds larger directory indices first and the sort is stable). -/
def levelOrder (a b : Level) : Prop :=
  b.width < a.width ∨ (a.width = b.width ∧ b.directory < a.directory)

instance (a b : Level) : Decidable (levelOrder a b) := by
  unfold levelOrder
  exact inferInstance

/-- The ordering asserted by the specification: widths non-increasing,
ties in ascending directory order. -/
def claimTieOrder (a b : Level) : Prop :=
  b.width < a.width ∨ (a.width = b.width ∧ a.directory < b.directory)

instance (a b : Level) : Decidable (claimTieOrder a b) := by
  unfold claimTieOrder
  exact inferInstance

/-- Directory indices strictly descending along the list. -/
def dirDescending (a b : Level) : Prop := b.directory < a.directory

theorem width_compare_nonpos (x y : Level) :
    width_compare x y ≤ 0 ↔ y.width ≤ x.width := by
  unfold width_compare
  split
  · simp; omega
  · split
    · simp; omega
    · simp; omega

theorem levelOrder_width_le {a b : Level} (h : levelOrder a b) :
    b.width ≤ a.width := by
  rcases h with h | ⟨h, _⟩ <;> omega

theorem mem_insertSorted {y x : Level} {l : List Level} :
    y ∈ insertSorted x l ↔ y = x ∨ y ∈ l := by
  induction l with
  | nil => simp [insertSorted]
  | cons z zs ih =>
    rw [insertSorted]
    split
    · simp
    · simp only [List.mem_cons, ih]
      tauto

theorem mem_g_list_sort {y : Level} {l : List Level} :
    y ∈ g_list_sort l ↔ y ∈ l := by
  induction l with
  | nil => simp [g_list_sort]
  | cons x xs ih =>
    rw [g_list_sort, mem_insertSorted]
    simp [ih]

theorem insertSorted_pairwise {x : Level} {l : List Level}
    (hl : l.Pairwise levelOrder)
    (hx : ∀ y ∈ l, y.directory < x.directory) :
    (insertSorted x l).Pairwise levelOrder := by
  induction l with
  | nil => simp [insertSorted]
  | cons y ys ih =>
    rw [insertSorted]
    rcases List.pairwise_cons.mp hl with ⟨hyes, hys⟩
    split
    case isTrue hcmp =>
      have hyx : y.width ≤ x.width := (width_compare_nonpos x y).mp hcmp
      refine List.pairwise_cons.mpr ⟨?_, hl⟩
      intro z hz
      have hzw : z.width ≤ x.width := by
        rcases List.mem_cons.mp hz with rfl | hz'
        · exact hyx
        · exact le_trans (levelOrder_width_le (hyes z hz')) hyx
      have hzd : z.directory < x.directory := hx z hz
      unfold levelOrder
      omega
    case isFalse hcmp =>
      have hxy : x.width < y.width := by
        have := (width_compare_nonpos x y).not.mp hcmp
        omega
      refine List.pairwise_cons.mpr ⟨?_, ?_⟩
      · intro z hz
        rcases mem_insertSorted.mp hz with rfl | hz'
        · exact Or.inl hxy
        · exact hyes z hz'
      · exact ih hys (fun z hz => hx z (List.mem_cons_of_mem y hz))

theorem g_list_sort_pairwise {l : List Level}
    (h : l.Pairwise dirDescending) :
    (g_list_sort l).Pairwise levelOrder := by
  induction l with
  | nil => simp [g_list_sort]
  | cons x xs ih =>
    rw [g_list_sort]
    rcases List.pairwise_cons.mp h with ⟨hxs, hrest⟩
    refine insertSorted_pairwise (ih hrest) ?_
    intro y hy
    exact hxs y (mem_g_list_sort.mp hy)

theorem enumF_append (n : Nat) (l1 l2 : List TiffDir) :
    enumF n (l1 ++ l2) = enumF n l1 ++ enumF (n + l1.length) l2 := by
  induction l1 generalizing n with
  | nil => simp [enumF]
  | cons d ds ih =>
    have h : n + 1 + ds.length = n + (ds.length + 1) := by omega
    show (n, d) :: enumF (n + 1) (ds ++ l2)
        = (n, d) :: (enumF (n + 1) ds ++ enumF (n + (ds.length + 1)) l2)
    rw [ih, h]

theorem runDirs_append (env : VEnv) (osr : Bool)
    (l1 l2 : List (Nat × TiffDir)) (st : LoopState) :
    runDirs env osr (l1 ++ l2) st =
      match runDirs env osr l1 st with
      | (st', none) => runDirs env osr l2 st'
      | (st', some e) => (st', some e) := by
  induction l1 generalizing st with
  | nil => simp [runDirs]
  | cons hd tl ih =>
    obtain ⟨i, d⟩ := hd
    rw [List.cons_append, runDirs, runDirs]
    cases stepDir env osr i d st with
    | abort e => rfl
    | next st' => exact ih st'

/-- Shape of the state after one successful loop iteration: the level
list is untouched or gains exactly the entry for the current index, and
that only for indices other than 0 and 1. -/
theorem stepDir_levels {env : VEnv} {osr : Bool} {i : Nat} {d : TiffDir}
    {st st' : LoopState} (h : stepDir env osr i d st = .next st') :
    st'.levels = st.levels ∨
      (∃ w, st'.levels = ⟨i, w⟩ :: st.levels ∧ i ≠ 0 ∧ i ≠ 1) := by
  unfold stepDir at h
  split at h
  · cases h; exact Or.inl rfl
  · split at h
    · cases h; exact Or.inl rfl
    · rename_i w _
      split at h
      · rename_i hi0
        split at h
        · exact absurd h (by simp)
        · cases h; exact Or.inl rfl
      · split at h
        · rename_i hi1
          split at h
          · exact absurd h (by simp)
          · cases h; exact Or.inl rfl
        · rename_i hi0 hi1
          unfold processLevel at h
          split at h
          · cases h; exact Or.inl rfl
          · split at h
            · cases h; exact Or.inl rfl
            · split at h
              · exact absurd h (by simp)
              · split at h
                · exact absurd h (by simp)
                · split at h
                  · split at h
                    · exact absurd h (by simp)
                    · split at h
                      · exact absurd h (by simp)
                      · split at h
                        · exact absurd h (by simp)
                        · cases h
                          exact Or.inr ⟨w, rfl, hi0, hi1⟩
                  · cases h
                    exact Or.inr ⟨w, rfl, hi0, hi1⟩

/-- Loop invariant on the accumulated level list: directory indices are
strictly descending, at least 2, and below the bound. -/
def levelsInv (k : Nat) (st : LoopState) : Prop :=
  st.levels.Pairwise dirDescending ∧
    ∀ lv ∈ st.levels, 2 ≤ lv.directory ∧ lv.directory < k

theorem levelsInv_mono {m n : Nat} {st : LoopState}
    (h : levelsInv m st) (hmn : m ≤ n) : levelsInv n st :=
  ⟨h.1, fun lv hlv => ⟨(h.2 lv hlv).1, lt_of_lt_of_le (h.2 lv hlv).2 hmn⟩⟩

theorem stepDir_inv {env : VEnv} {osr : Bool} {i : Nat} {d : TiffDir}
    {st st' : LoopState} (h : stepDir env osr i d st = .next st')
    (hinv : levelsInv i st) : levelsInv (i + 1) st' := by
  rcases stepDir_levels h with heq | ⟨w, heq, hi0, hi1⟩
  · rw [levelsInv, heq]
    exact levelsInv_mono hinv (Nat.le_succ i)
  · rw [levelsInv, heq]
    constructor
    · refine List.pairwise_cons.mpr ⟨?_, hinv.1⟩
      intro lv hlv
      exact (hinv.2 lv hlv).2
    · intro lv hlv
      rcases List.mem_cons.mp hlv with rfl | hlv'
      · exact ⟨by show 2 ≤ i; omega, by show i < i + 1; omega⟩
      · exact ⟨(hinv.2 lv hlv').1, by have := (hinv.2 lv hlv').2; omega⟩

theorem runDirs_inv (env : VEnv) (osr : Bool) (ds : List TiffDir) :
    ∀ (k : Nat) (st : LoopState), levelsInv k st →
      levelsInv (k + ds.length) (runDirs env osr (enumF k ds) st).1 := by
  induction ds with
  | nil =>
    intro k st h
    simpa [runDirs, enumF] using h
  | cons d ds ih =>
    intro k st h
    rw [enumF, runDirs]
    cases hstep : stepDir env osr k d st with
    | abort e =>
      exact levelsInv_mono h (by simp only [List.length_cons]; omega)
    | next st' =>
      have h' := ih (k + 1) st' (stepDir_inv hstep h)
      have : k + 1 + ds.length = k + (d :: ds).length := by
        simp only [List.length_cons]; omega
      rwa [this] at h'

theorem set_prop_from_attribute_false (property_name attribute_name : String)
    (doc : XmlDoc) (props : PropMap) :
    set_prop_from_attribute false property_name attribute_name doc props
      = props := by
  unfold set_prop_from_attribute
  split
  · rfl
  · split
    · rfl
    · split
      · rfl
      · rfl

theorem applyVentanaProps_false (doc : XmlDoc) :
    ∀ props : PropMap, applyVentanaProps false doc props = props := by
  unfold applyVentanaProps
  generalize ventanaAttrs = l
  induction l with
  | nil => intro props; rfl
  | cons pa pas ih =>
    intro props
    rw [List.foldl_cons, set_prop_from_attribute_false]
    exact ih props

theorem applyStandardProps_false (props : PropMap) :
    applyStandardProps false props = props := rfl

/-- The outcome of `parse_xml_description` does not depend on whether a
property sink was supplied: a run without a sink fails exactly when the
run with a sink fails, with the same error, and succeeds leaving its
(sink-less) property state untouched. -/
theorem parse_xml_description_osr (env : VEnv) (xml : String)
    (p p' : PropMap) :
    (∃ e, parse_xml_description env false xml p = .err e ∧
          parse_xml_description env true xml p' = .err e) ∨
    (parse_xml_description env false xml p = .ok p ∧
      ∃ q, parse_xml_description env true xml p' = .ok q) := by
  cases hp : env.parseXml xml with
  | none =>
    refine Or.inl ⟨.formatNotSupported, ?_, ?_⟩ <;>
      simp [parse_xml_description, hp]
  | some doc =>
    cases hq : eval_xpath doc with
    | none =>
      refine Or.inl ⟨.badData, ?_, ?_⟩ <;>
        simp [parse_xml_description, hp, hq]
    | some ns =>
      by_cases hlen : ns.length = 1
      · refine Or.inr ⟨?_,
          ⟨applyStandardProps true (applyVentanaProps true doc p'), ?_⟩⟩ <;>
          simp [parse_xml_description, hp, hq, hlen,
                applyVentanaProps_false, applyStandardProps_false]
      · refine Or.inl ⟨.badData, ?_, ?_⟩ <;>
          simp [parse_xml_description, hp, hq, hlen]

/-- One loop iteration, run without sinks against the same directory as
a run with sinks: both abort with the same error or both continue, the
level accumulation is identical, and the sink-less run never touches
its property map or registry. -/
theorem stepDir_osr (env : VEnv) (i : Nat) (d : TiffDir)
    (st st' : LoopState) (hlev : st.levels = st'.levels) :
    (∃ e, stepDir env false i d st = .abort e ∧
          stepDir env true i d st' = .abort e) ∨
    (∃ u u', stepDir env false i d st = .next u ∧
             stepDir env true i d st' = .next u' ∧
             u.levels = u'.levels ∧ u.props = st.props ∧ u.assoc = st.assoc) := by
  by_cases ht : d.tiled = false
  · refine Or.inr ⟨st, st', ?_, ?_, hlev, rfl, rfl⟩ <;> simp [stepDir, ht]
  · cases hw : d.width with
    | none =>
      refine Or.inr ⟨st, st', ?_, ?_, hlev, rfl, rfl⟩ <;> simp [stepDir, ht, hw]
    | some w =>
      by_cases hi0 : i = 0
      · cases hA : env.assocOK 0 with
        | false =>
          refine Or.inl ⟨.assocFail "label", ?_, ?_⟩ <;>
            simp [stepDir, ht, hw, hi0, add_associated_image,
                  _openslide_add_tiff_associated_image, hA]
        | true =>
          refine Or.inr ⟨st, { st' with assoc := ("label", 0) :: st'.assoc },
              ?_, ?_, hlev, rfl, rfl⟩ <;>
            simp [stepDir, ht, hw, hi0, add_associated_image,
                  _openslide_add_tiff_associated_image, hA]
      · by_cases hi1 : i = 1
        · cases hA : env.assocOK 1 with
          | false =>
            refine Or.inl ⟨.assocFail "thumbnail", ?_, ?_⟩ <;>
              simp [stepDir, ht, hw, hi0, hi1, add_associated_image,
                    _openslide_add_tiff_associated_image, hA]
          | true =>
            refine Or.inr ⟨st, { st' with assoc := ("thumbnail", 1) :: st'.assoc },
                ?_, ?_, hlev, rfl, rfl⟩ <;>
              simp [stepDir, ht, hw, hi0, hi1, add_associated_image,
                    _openslide_add_tiff_associated_image, hA]
        · cases hdesc : d.description with
          | none =>
            refine Or.inr ⟨st, st', ?_, ?_, hlev, rfl, rfl⟩ <;>
              simp [stepDir, processLevel, ht, hw, hi0, hi1, hdesc]
          | some imageDesc =>
            cases hfp : find_property imageDesc "level" false with
            | none =>
              refine Or.inr ⟨st, st', ?_, ?_, hlev, rfl, rfl⟩ <;>
                simp [stepDir, processLevel, ht, hw, hi0, hi1, hdesc, hfp]
            | some level_value =>
              cases hcomp : d.compression with
              | none =>
                refine Or.inl ⟨.badData, ?_, ?_⟩ <;>
                  simp [stepDir, processLevel, ht, hw, hi0, hi1, hdesc, hfp, hcomp]
              | some compression =>
                cases hC : env.codecOK compression with
                | false =>
                  refine Or.inl ⟨.badData, ?_, ?_⟩ <;>
                    simp [stepDir, processLevel, ht, hw, hi0, hi1, hdesc, hfp,
                          hcomp, hC]
                | true =>
                  by_cases hlv : level_value = "0"
                  · cases hx : d.xmp with
                    | none =>
                      refine Or.inl ⟨.formatNotSupported, ?_, ?_⟩ <;>
                        simp [stepDir, processLevel, ht, hw, hi0, hi1, hdesc,
                              hfp, hcomp, hC, hlv, hx]
                    | some xmpData =>
                      cases hS : strHas xmpData "<iScan" with
                      | false =>
                        refine Or.inl ⟨.formatNotSupported, ?_, ?_⟩ <;>
                          simp [stepDir, processLevel, ht, hw, hi0, hi1, hdesc,
                                hfp, hcomp, hC, hlv, hx, hS]
                      | true =>
                        rcases parse_xml_description_osr env xmpData st.props st'.props
                          with ⟨e, hf, htr⟩ | ⟨hf, q, htr⟩
                        · refine Or.inl ⟨e, ?_, ?_⟩
                          · simp [stepDir, processLevel, ht, hw, hi0, hi1, hdesc,
                                  hfp, hcomp, hC, hlv, hx, hS, hf]
                          · simp [stepDir, processLevel, ht, hw, hi0, hi1, hdesc,
                                  hfp, hcomp, hC, hlv, hx, hS, htr]
                        · refine Or.inr
                            ⟨⟨⟨i, w⟩ :: st.levels, st.props, st.assoc⟩,
                             ⟨⟨i, w⟩ :: st'.levels, q, st'.assoc⟩,
                             ?_, ?_, ?_, rfl, rfl⟩
                          · simp [stepDir, processLevel, ht, hw, hi0, hi1, hdesc,
                                  hfp, hcomp, hC, hlv, hx, hS, hf]
                          · simp [stepDir, processLevel, ht, hw, hi0, hi1, hdesc,
                                  hfp, hcomp, hC, hlv, hx, hS, htr]
                          · simp [hlev]
                  · refine Or.inr
                      ⟨⟨⟨i, w⟩ :: st.levels, st.props, st.assoc⟩,
                       ⟨⟨i, w⟩ :: st'.levels, st'.props, st'.assoc⟩,
                       ?_, ?_, ?_, rfl, rfl⟩
                    · simp [stepDir, processLevel, ht, hw, hi0, hi1, hdesc, hfp,
                            hcomp, hC, hlv]
                    · simp [stepDir, processLevel, ht, hw, hi0, hi1, hdesc, hfp,
                            hcomp, hC, hlv]
                    · simp [hlev]

/-- The whole directory walk, without sinks versus with sinks: same
stopping error (if any), same accumulated levels, and the sink-less run
leaves its property map and registry exactly as given. -/
theorem runDirs_osr (env : VEnv) (l : List (Nat × TiffDir)) :
    ∀ st st' : LoopState, st.levels = st'.levels →
      (runDirs env false l st).2 = (runDirs env true l st').2 ∧
      (runDirs env false l st).1.levels = (runDirs env true l st').1.levels ∧
      (runDirs env false l st).1.props = st.props ∧
      (runDirs env false l st).1.assoc = st.assoc := by
  induction l with
  | nil =>
    intro st st' hlev
    exact ⟨rfl, hlev, rfl, rfl⟩
  | cons hd tl ih =>
    intro st st' hlev
    obtain ⟨i, d⟩ := hd
    rw [runDirs, runDirs]
    rcases stepDir_osr env i d st st' hlev with
      ⟨e, hf, htr⟩ | ⟨u, u', hf, htr, hu, hup, hua⟩
    · rw [hf, htr]
      exact ⟨rfl, hlev, rfl, rfl⟩
    · rw [hf, htr]
      have := ih u u' hu
      exact ⟨this.1, this.2.1, by rw [this.2.2.1, hup], by rw [this.2.2.2, hua]⟩

/-- A directory that reaches the compression check (tiled, has a width,
index at least 2, description carrying a `level` token) aborts the loop
with `BadData` when the compression tag is unreadable or names a codec
the runtime cannot decode. -/
theorem stepDir_badComp (env : VEnv) (osr : Bool) (i : Nat) (d : TiffDir)
    (st : LoopState) (hi0 : i ≠ 0) (hi1 : i ≠ 1) (ht : d.tiled = true)
    (w : Nat) (hw : d.width = some w) (imageDesc : String)
    (hdesc : d.description = some imageDesc) (lv : String)
    (hfp : find_property imageDesc "level" false = some lv)
    (hc : d.compression = none ∨
      ∃ c, d.compression = some c ∧ env.codecOK c = false) :
    stepDir env osr i d st = .abort .badData := by
  rcases hc with hc | ⟨c, hc, hC⟩
  · simp [stepDir, processLevel, ht, hw, hi0, hi1, hdesc, hfp, hc]
  · simp [stepDir, processLevel, ht, hw, hi0, hi1, hdesc, hfp, hc, hC]

/-- Rewrite lemmas for the epilogue. -/
theorem finishRun_err (st : LoopState) (e : VErr) :
    finishRun (st, some e) = ⟨.fail e, st.props, st.assoc⟩ := rfl

theorem finishRun_none_nil {st : LoopState}
    (hs : g_list_sort st.levels = []) :
    finishRun (st, none) = ⟨.oobRead, st.props, st.assoc⟩ := by
  have h1 : finishRun (st, none)
      = match g_list_sort st.levels with
        | [] => ⟨.oobRead, st.props, st.assoc⟩
        | l :: ls => ⟨.handoff (l :: ls), st.props, st.assoc⟩ := rfl
  rw [h1, hs]

theorem finishRun_none_cons {st : LoopState} {l : Level} {ls : List Level}
    (hs : g_list_sort st.levels = l :: ls) :
    finishRun (st, none) = ⟨.handoff (l :: ls), st.props, st.assoc⟩ := by
  have h1 : finishRun (st, none)
      = match g_list_sort st.levels with
        | [] => ⟨.oobRead, st.props, st.assoc⟩
        | l :: ls => ⟨.handoff (l :: ls), st.props, st.assoc⟩ := rfl
  rw [h1, hs]

/-- Unfolding of the entry point on a container whose first directory
is tiled. -/
theorem tryVentana_cons (env : VEnv) (osr : Bool) (d0 : TiffDir)
    (rest : List TiffDir) (ht : ¬ d0.tiled = false) :
    _openslide_try_ventana env osr (d0 :: rest)
      = finishRun (runDirs env osr (enumF 0 (d0 :: rest)) (initState osr)) := by
  simp [_openslide_try_ventana, ht]

/-- Any successful handoff carries the stable sort of an accumulation
whose directory indices were strictly descending and at least 2: the
handed-off array is ordered by `levelOrder` and never contains the two
reserved directory indices. -/
theorem tryVentana_handoff_inv (env : VEnv) (osr : Bool)
    (dirs : List TiffDir) (lvls : List Level)
    (h : (_openslide_try_ventana env osr dirs).result = .handoff lvls) :
    lvls.Pairwise levelOrder ∧ ∀ lv ∈ lvls, 2 ≤ lv.directory := by
  cases dirs with
  | nil => simp [_openslide_try_ventana] at h
  | cons d0 rest =>
    by_cases ht : d0.tiled = false
    · simp [_openslide_try_ventana, ht] at h
    · rcases hr : runDirs env osr (enumF 0 (d0 :: rest)) (initState osr) with ⟨st, e⟩
      have hinv := runDirs_inv env osr (d0 :: rest) 0 (initState osr)
        ⟨List.Pairwise.nil, by intro lv hlv; simp [initState] at hlv⟩
      rw [hr] at hinv
      rw [tryVentana_cons env osr d0 rest ht, hr] at h
      cases e with
      | some e' => rw [finishRun_err] at h; simp at h
      | none =>
        cases hs : g_list_sort st.levels with
        | nil => rw [finishRun_none_nil hs] at h; simp at h
        | cons l ls =>
          rw [finishRun_none_cons hs] at h
          simp only at h
          have hl : l :: ls = lvls := by
            cases h
            rfl
          constructor
          · have hpw := g_list_sort_pairwise (hinv.1 : st.levels.Pairwise dirDescending)
            rw [hs, hl] at hpw
            exact hpw
          · intro lv hlv
            rw [← hl] at hlv
            have hmem : lv ∈ st.levels := mem_g_list_sort.mp (hs ▸ hlv)
            exact (hinv.2 lv hmem).1

/-- Fixture: a tiled directory sitting at index 0 (consumed as the
label image). -/
def dirLabel : TiffDir := ⟨true, some 200, none, some 1, none⟩

/-- Fixture: a tiled directory sitting at index 1 (consumed as the
thumbnail image). -/
def dirThumb : TiffDir := ⟨true, some 150, none, some 1, none⟩

/-- Fixture environment: no byte string parses as XML, every codec is
configured, associated-image reads succeed. -/
def envBase : VEnv := ⟨fun _ => none, fun _ => true, fun _ => true⟩

/-- Fixture environment: only compression scheme 1 (uncompressed) is
configured. -/
def envCodec : VEnv := ⟨fun _ => none, fun c => c == 1, fun _ => true⟩

/-- Fixture document with exactly one iScan node. -/
def docOne : XmlDoc := ⟨[⟨[("Magnification", "20"), ("ScanRes", "0.25")]⟩]⟩

/-- Fixture environment whose XML parser always yields `docOne`. -/
def envXml : VEnv := ⟨fun _ => some docOne, fun _ => true, fun _ => true⟩

/-- Fixture container producing two equal-width pyramid levels at
directory indices 2 and 3. -/
def dirsTie : List TiffDir :=
  [dirLabel, dirThumb,
   ⟨true, some 100, some "level=1", some 1, none⟩,
   ⟨true, some 100, some "level=2", some 1, none⟩]

/-- Claim C1: for a free-text string containing a `key=value` token,
`find_property` is said to report found and return exactly the value
substring, without the key, the separator or quotes.  The code instead
stores `g_match_info_fetch(props_match, 0)`, the full text of the
match: on the description `level=0 Mag=40` with key `level` it reports
found but yields `level=0` (the whole token as matched by the lazy
pattern), not the value substring `0`. -/
theorem find_property_returns_full_token :
    find_property "level=0 Mag=40" "level" false = some "level=0" ∧
      find_property "level=0 Mag=40" "level" false ≠ some "0" := by
  constructor
  · decide
  · decide

/-- Claim C2: classification is said to fail with `FormatNotSupported`
when a directory carrying the token `level=0` has no XML metadata tag
containing the iScan marker.  Because `find_property` returns the full
match `level=0` and the loop compares it to the string `0`, the
confirmation branch is unreachable: on a container whose level-0
directory has no XMP tag at all, classification succeeds and hands off
the level instead of failing. -/
theorem ventana_level0_marker_check_dead :
    (_openslide_try_ventana envBase true
      [dirLabel, dirThumb,
       ⟨true, some 100, some "level=0", some 1, none⟩]).result
        = .handoff [⟨2, 100⟩] ∧
    (_openslide_try_ventana envBase true
      [dirLabel, dirThumb,
       ⟨true, some 100, some "level=0", some 1, none⟩]).result
        ≠ .fail .formatNotSupported := by
  constructor
  · decide
  · decide

/-- Claim C3: empty accumulation is said to yield `BadData` and never
an out-of-bounds access.  The code allocates a zero-length `levels`
array and unconditionally reads `levels[0]`: on a container holding
only the label and thumbnail directories the execution reaches the
out-of-bounds read, and no `BadData` error is produced. -/
theorem ventana_empty_levels_oob :
    (_openslide_try_ventana envBase true [dirLabel, dirThumb]).result
      = .oobRead ∧
    (_openslide_try_ventana envBase true [dirLabel, dirThumb]).result
      ≠ .fail .badData := by
  constructor
  · decide
  · decide

/-- Claim C4, counterexample: the claim orders equal-width entries by
ascending directory index.  On a container with equal-width levels at
directories 2 and 3, the prepend-accumulated list holds directory 3
first and GLib's stable sort keeps that order, so the handed-off array
is `[3, 2]` — which violates the ascending tie order. -/
theorem ventana_tie_order_cex :
    (_openslide_try_ventana envBase true dirsTie).result
      = .handoff [⟨3, 100⟩, ⟨2, 100⟩] ∧
    ¬ ([Level.mk 3 100, Level.mk 2 100].Pairwise claimTieOrder) := by
  constructor
  · decide
  · intro hpw
    have h1 := (List.pairwise_cons.mp hpw).1 ⟨2, 100⟩ (by simp)
    rcases h1 with h1 | ⟨_, h1⟩ <;> simp at h1

/-- Claim C4, amended: every successful classification hands off an
array whose widths are non-increasing and whose equal-width entries
appear in descending directory-index order (the order produced by the
stable sort over the prepend-accumulated list). -/
theorem ventana_sorted_widths_ties_descending (env : VEnv) (osr : Bool)
    (dirs : List TiffDir) (lvls : List Level)
    (h : (_openslide_try_ventana env osr dirs).result = .handoff lvls) :
    lvls.Pairwise levelOrder :=
  (tryVentana_handoff_inv env osr dirs lvls h).1

/-- Witness for the amended C4 theorem at a concrete container. -/
theorem ventana_sorted_widths_ties_descending_wit :
    ([⟨3, 100⟩, ⟨2, 100⟩] : List Level).Pairwise levelOrder :=
  ventana_sorted_widths_ties_descending envBase true dirsTie
    [⟨3, 100⟩, ⟨2, 100⟩] (by decide)

theorem finishRun_props (r : LoopState × Option VErr) :
    (finishRun r).props = r.1.props := by
  rcases r with ⟨st, e⟩
  cases e with
  | some e' => rfl
  | none =>
    cases hs : g_list_sort st.levels with
    | nil => rw [finishRun_none_nil hs]
    | cons l ls => rw [finishRun_none_cons hs]

theorem finishRun_assoc (r : LoopState × Option VErr) :
    (finishRun r).assoc = r.1.assoc := by
  rcases r with ⟨st, e⟩
  cases e with
  | some e' => rfl
  | none =>
    cases hs : g_list_sort st.levels with
    | nil => rw [finishRun_none_nil hs]
    | cons l ls => rw [finishRun_none_cons hs]

theorem finishRun_result_congr {st st' : LoopState} {e : Option VErr}
    (hlev : st.levels = st'.levels) :
    (finishRun (st, e)).result = (finishRun (st', e)).result := by
  cases e with
  | some e' => rfl
  | none =>
    cases hs : g_list_sort st.levels with
    | nil =>
      have hs' : g_list_sort st'.levels = [] := by rw [← hlev]; exact hs
      rw [finishRun_none_nil hs, finishRun_none_nil hs']
    | cons l ls =>
      have hs' : g_list_sort st'.levels = l :: ls := by rw [← hlev]; exact hs
      rw [finishRun_none_cons hs, finishRun_none_cons hs']

theorem finishRun_result_eq (r r' : LoopState × Option VErr)
    (h2 : r.2 = r'.2) (hlev : r.1.levels = r'.1.levels) :
    (finishRun r).result = (finishRun r').result := by
  rcases r with ⟨st, e⟩
  rcases r' with ⟨st', e'⟩
  have h2' : e = e' := h2
  have hlev' : st.levels = st'.levels := hlev
  subst h2'
  exact finishRun_result_congr hlev'

/-- Claim C5: for an XML fragment whose parsed document answers the
fixed scan-info query with a node count different from one (zero or
several alike), `parse_xml_description` fails with `BadData`; when the
count is exactly one it passes the check and returns successfully with
the attribute copies applied. -/
theorem parse_xml_iscan_count_gate (env : VEnv) (osr : Bool) (xml : String)
    (props : PropMap) (doc : XmlDoc) (hp : env.parseXml xml = some doc) :
    (doc.iScanNodes.length ≠ 1 →
      parse_xml_description env osr xml props = .err .badData) ∧
    (doc.iScanNodes.length = 1 →
      parse_xml_description env osr xml props
        = .ok (applyStandardProps osr (applyVentanaProps osr doc props))) := by
  constructor
  · intro hlen
    cases hnodes : doc.iScanNodes with
    | nil => simp [parse_xml_description, hp, eval_xpath, hnodes]
    | cons n ns =>
      rw [hnodes] at hlen
      simp only [List.length_cons, ne_eq, Nat.add_left_eq_self,
        List.length_eq_zero] at hlen
      simp [parse_xml_description, hp, eval_xpath, hnodes, hlen]
  · intro hlen
    cases hnodes : doc.iScanNodes with
    | nil => rw [hnodes] at hlen; simp at hlen
    | cons n ns =>
      rw [hnodes] at hlen
      simp only [List.length_cons, Nat.add_left_eq_self,
        List.length_eq_zero] at hlen
      simp [parse_xml_description, hp, eval_xpath, hnodes, hlen]

/-- Witness for C5: on a document with exactly one iScan node the
parse passes the count check and succeeds. -/
theorem parse_xml_iscan_count_gate_wit :
    parse_xml_description envXml true "<EncodeInfo/>" []
      = .ok (applyStandardProps true (applyVentanaProps true docOne [])) :=
  (parse_xml_iscan_count_gate envXml true "<EncodeInfo/>" [] docOne rfl).2 rfl

/-- Claim C6: a directory classified as a pyramid-level candidate
(tiled, has a width, index at least 2, description carrying a `level`
token) whose compression tag is unreadable or names a codec the runtime
cannot decode makes the whole classification fail with `BadData`, no
matter what was accumulated before; the directory is not skipped. -/
theorem ventana_bad_compression_hard_fail (env : VEnv) (osr : Bool)
    (pre post : List TiffDir) (d : TiffDir) (st : LoopState)
    (hhead : pre.head?.all TiffDir.tiled = true)
    (hrun : runDirs env osr (enumF 0 pre) (initState osr) = (st, none))
    (hlen : 2 ≤ pre.length)
    (ht : d.tiled = true) (w : Nat) (hw : d.width = some w)
    (imageDesc : String) (hdesc : d.description = some imageDesc)
    (lv : String) (hfp : find_property imageDesc "level" false = some lv)
    (hc : d.compression = none ∨
      ∃ c, d.compression = some c ∧ env.codecOK c = false) :
    (_openslide_try_ventana env osr (pre ++ d :: post)).result
      = .fail .badData := by
  obtain ⟨p0, pre1, rfl⟩ : ∃ p0 pre1, pre = p0 :: pre1 := by
    cases pre with
    | nil => simp at hlen
    | cons a l => exact ⟨a, l, rfl⟩
  simp only [List.head?, Option.all] at hhead
  have hp0 : ¬ p0.tiled = false := by simp [hhead]
  have hstep : stepDir env osr ((p0 :: pre1).length) d st = .abort .badData :=
    stepDir_badComp env osr _ d st (by omega) (by omega)
      ht w hw imageDesc hdesc lv hfp hc
  have hwalk : runDirs env osr (enumF 0 (p0 :: (pre1 ++ d :: post)))
      (initState osr) = (st, some VErr.badData) := by
    have h1 : enumF 0 (p0 :: (pre1 ++ d :: post))
        = enumF 0 (p0 :: pre1)
          ++ enumF (0 + (p0 :: pre1).length) (d :: post) := by
      rw [← List.cons_append]
      exact enumF_append 0 (p0 :: pre1) (d :: post)
    rw [h1, runDirs_append, hrun]
    show runDirs env osr (enumF (0 + (p0 :: pre1).length) (d :: post)) st
        = (st, some VErr.badData)
    rw [Nat.zero_add, enumF, runDirs, hstep]
  rw [show (p0 :: pre1) ++ d :: post = p0 :: (pre1 ++ d :: post) from rfl,
      tryVentana_cons env osr p0 (pre1 ++ d :: post) hp0, hwalk, finishRun_err]

/-- Fixture prefix accumulating one level before the bad directory. -/
def preCodec : List TiffDir :=
  [dirLabel, dirThumb, ⟨true, some 100, some "level=1", some 1, none⟩]

/-- Fixture directory whose compression scheme 7 is not configured in
`envCodec`. -/
def dirBadComp : TiffDir := ⟨true, some 50, some "level=2", some 7, none⟩

/-- Loop state after walking `preCodec` under `envCodec`. -/
def stCodec : LoopState :=
  ⟨[⟨2, 100⟩], [("openslide.vendor", "ventana")],
   [("thumbnail", 1), ("label", 0)]⟩

/-- Witness for C6: with one level already accumulated, the directory
with the unconfigured codec aborts the whole classification with
`BadData`. -/
theorem ventana_bad_compression_hard_fail_wit :
    (_openslide_try_ventana envCodec true
      (preCodec ++ dirBadComp :: [])).result = .fail .badData :=
  ventana_bad_compression_hard_fail envCodec true preCodec [] dirBadComp
    stCodec (by decide) (by decide) (by decide) (by decide) 50 (by decide)
    "level=2" (by decide) "level=2" (by decide)
    (Or.inr ⟨7, by decide, by decide⟩)

/-- Claim C7: when the first directory is not tiled, classification
fails immediately with `FormatNotSupported`, before the vendor property
insert and before any associated-image registration, so both sinks stay
empty. -/
theorem ventana_untiled_first_directory (env : VEnv) (osr : Bool)
    (d0 : TiffDir) (rest : List TiffDir) (h : d0.tiled = false) :
    _openslide_try_ventana env osr (d0 :: rest)
      = ⟨.fail .formatNotSupported, [], []⟩ := by
  simp [_openslide_try_ventana, h]

/-- Witness for C7 on a concrete non-tiled first directory. -/
theorem ventana_untiled_first_directory_wit :
    _openslide_try_ventana envBase true
      (⟨false, some 10, none, some 1, none⟩ :: [])
      = ⟨.fail .formatNotSupported, [], []⟩ :=
  ventana_untiled_first_directory envBase true
    ⟨false, some 10, none, some 1, none⟩ [] rfl

/-- Claim C8: detection-only classification (no sinks supplied) has the
same success/failure outcome as a run with sinks on the same container
— in particular it hands the same ordered level array to the backend —
and performs no observable mutation: its property map and registry
contributions are empty. -/
theorem ventana_detection_mode_agrees (env : VEnv) (dirs : List TiffDir) :
    (_openslide_try_ventana env false dirs).result
      = (_openslide_try_ventana env true dirs).result ∧
    (_openslide_try_ventana env false dirs).props = [] ∧
    (_openslide_try_ventana env false dirs).assoc = [] := by
  cases dirs with
  | nil => exact ⟨rfl, rfl, rfl⟩
  | cons d0 rest =>
    by_cases ht : d0.tiled = false
    · refine ⟨?_, ?_, ?_⟩ <;> simp [_openslide_try_ventana, ht]
    · obtain ⟨he, hlev, hprops, hassoc⟩ :=
        runDirs_osr env (enumF 0 (d0 :: rest)) (initState false)
          (initState true) rfl
      rw [tryVentana_cons env false d0 rest ht,
          tryVentana_cons env true d0 rest ht]
      refine ⟨finishRun_result_eq _ _ he hlev, ?_, ?_⟩
      · rw [finishRun_props, hprops]
        rfl
      · rw [finishRun_assoc, hassoc]
        rfl

/-- Claim C9: when directories 0 and 1 were consumed as the label and
thumbnail associated images, neither directory index appears in the
handed-off level array. -/
theorem ventana_levels_exclude_reserved (env : VEnv) (osr : Bool)
    (dirs : List TiffDir) (lvls : List Level)
    (h : (_openslide_try_ventana env osr dirs).result = .handoff lvls)
    (hlab : ("label", 0) ∈ (_openslide_try_ventana env osr dirs).assoc)
    (hthm : ("thumbnail", 1) ∈ (_openslide_try_ventana env osr dirs).assoc) :
    0 ∉ lvls.map Level.directory ∧ 1 ∉ lvls.map Level.directory := by
  have hge := (tryVentana_handoff_inv env osr dirs lvls h).2
  constructor
  · intro hmem
    obtain ⟨lv, hlv, hdir⟩ := List.mem_map.mp hmem
    have := hge lv hlv
    omega
  · intro hmem
    obtain ⟨lv, hlv, hdir⟩ := List.mem_map.mp hmem
    have := hge lv hlv
    omega

/-- Fixture container with label, thumbnail and two distinct-width
levels. -/
def dirsFull : List TiffDir :=
  [dirLabel, dirThumb,
   ⟨true, some 100, some "level=1", some 1, none⟩,
   ⟨true, some 50, some "level=2", some 1, none⟩]

/-- Witness for C9 on a concrete container where both associated
images were registered. -/
theorem ventana_levels_exclude_reserved_wit :
    0 ∉ ([⟨2, 100⟩, ⟨3, 50⟩] : List Level).map Level.directory ∧
    1 ∉ ([⟨2, 100⟩, ⟨3, 50⟩] : List Level).map Level.directory :=
  ventana_levels_exclude_reserved envBase true dirsFull
    [⟨2, 100⟩, ⟨3, 50⟩] (by decide) (by decide) (by decide)

/-- Claim C10: for the reserved indices 0 and 1, associated-image
registration is attempted exactly when the directory is tiled and has a
readable width — a non-tiled or width-less directory 0/1 is silently
skipped with the state unchanged — and the width value itself plays no
role in the registration outcome. -/
theorem ventana_reserved_dir_gate (env : VEnv) (osr : Bool) (d : TiffDir)
    (st : LoopState) (i w1 w2 : Nat) (hi : i = 0 ∨ i = 1) :
    ((d.tiled = false ∨ d.width = none) → stepDir env osr i d st = .next st) ∧
    (d.tiled = true →
      stepDir env osr i { d with width := some w1 } st
        = stepDir env osr i { d with width := some w2 } st) ∧
    (d.tiled = true → d.width = some w1 →
      stepDir env osr i d st =
        (if env.assocOK i
         then .next { st with assoc :=
            if osr then ((if i = 0 then "label" else "thumbnail"), i) :: st.assoc
            else st.assoc }
         else .abort (.assocFail (if i = 0 then "label" else "thumbnail")))) := by
  rcases hi with rfl | rfl
  · refine ⟨?_, ?_, ?_⟩
    · intro hor
      rcases hor with ht | hw
      · simp [stepDir, ht]
      · by_cases ht2 : d.tiled = false
        · simp [stepDir, ht2]
        · simp [stepDir, ht2, hw]
    · intro ht
      simp [stepDir, ht, add_associated_image,
            _openslide_add_tiff_associated_image]
    · intro ht hw
      cases hA : env.assocOK 0 with
      | false =>
        simp [stepDir, ht, hw, add_associated_image,
              _openslide_add_tiff_associated_image, hA]
      | true =>
        simp [stepDir, ht, hw, add_associated_image,
              _openslide_add_tiff_associated_image, hA]
  · refine ⟨?_, ?_, ?_⟩
    · intro hor
      rcases hor with ht | hw
      · simp [stepDir, ht]
      · by_cases ht2 : d.tiled = false
        · simp [stepDir, ht2]
        · simp [stepDir, ht2, hw]
    · intro ht
      simp [stepDir, ht, add_associated_image,
            _openslide_add_tiff_associated_image]
    · intro ht hw
      cases hA : env.assocOK 1 with
      | false =>
        simp [stepDir, ht, hw, add_associated_image,
              _openslide_add_tiff_associated_image, hA]
      | true =>
        simp [stepDir, ht, hw, add_associated_image,
              _openslide_add_tiff_associated_image, hA]

/-- Witness for C10: applying the gate theorem on the concrete label
directory yields the concrete registration step. -/
theorem ventana_reserved_dir_gate_wit :
    stepDir envBase true 0 dirLabel (initState true)
      = .next ⟨[], [("openslide.vendor", "ventana")], [("label", 0)]⟩ := by
  have h := (ventana_reserved_dir_gate envBase true dirLabel (initState true)
    0 200 9 (Or.inl rfl)).2.2 rfl rfl
  rw [h]
  decide
